import Mathlib

/-!
# Verification of the Supplier Growth Forum scheduler core

Shallow embedding of `src/app/scheduler.py` (the assignment engine) together
with the relevant pieces of `src/app.py` (substitution attachment, the
missing-supplier validation check).  Pandas data frames are embedded as Lean
lists of records, pandas boolean-mask filtering as `List.filter`, and
`DataFrame.sort_values` (stable for multi-key lexsort) as the stable
`List.insertionSort`.  Python dictionaries keyed by strings are embedded
either as total functions (for tables that are only ever read/updated
pointwise: availability, counters) or as association lists preserving
insertion order (for `supplier_summary`, whose key set is observed).

The calendar `time_slots` lives in `app/utils.py`, which is not part of the
sources; following the specification it is a day → slot → state mapping where
a slot state is `None` for an open slot or the strings `"LUNCH"` / `"BREAK"`
for the fixed blackouts.  It is threaded through every definition as an
explicit `Calendar` argument.  The randomness of `np.random.shuffle` is
embedded as an explicit `shuffle` argument giving the (per rep, per day)
shuffled slot order; a real draw satisfies `ShuffleOK` (each result is a
permutation of its input).
-/

namespace MscScheduler

/-- One sales-rep record of `reps_df`.  The scheduler reads the columns
`Sales Rep.`, `Category`, `Subcategory`, `Cat Rank`, `Subcat Rank`; the
leadership tier / region / segment columns are carried by the input (spec §6)
but are never read by `scheduler.py`. -/
structure Rep where
  name : String
  category : String
  subcategory : String
  catRank : Nat
  subcatRank : Nat
  leadership : String
  region : String
  segment : String
deriving DecidableEq, Repr

/-- One supplier record of `suppliers_df` (columns `Supplier`, `Booth #`,
`Type`). -/
structure Supplier where
  name : String
  booth : String
  stype : String
deriving DecidableEq, Repr

/-- A slot state as stored in `time_slots[day][slot]`: `Option.none` for an
open slot, `some "LUNCH"` / `some "BREAK"` for the blackouts.

Modelled from the spec: `app/utils.py` (the `time_slots` global) is not under
`src/`; the spec (§3, §4.3) tags each calendar slot `Open | Lunch | Break`,
and `scheduler.py` reads the tag as `None` / `"LUNCH"` / `"BREAK"`. -/
abbrev SlotState := Option String

/-- The calendar: ordered days, each an ordered association list from slot
name to slot state (embedding the nested dicts of `time_slots`). -/
abbrev Calendar := List (String × List (String × SlotState))

/-- `time_slots[day][slot]`, as a total lookup (`Option.none` when the day or
slot is absent; `scheduler.py` only ever indexes with keys obtained from the
calendar itself, where the lookup succeeds). -/
def slotState (ts : Calendar) (day slot : String) : Option SlotState :=
  (ts.lookup day).bind (fun m => m.lookup slot)

/-- The check `time_slots[day][slot] in ("LUNCH", "BREAK")` from
`_find_balanced_timeslot`. -/
def isBlackoutSlot (ts : Calendar) (day slot : String) : Bool :=
  match slotState ts day slot with
  | some (some s) => s == "LUNCH" || s == "BREAK"
  | _ => false

/-- The initial availability `(blocked is None)` of `run_scheduler`'s
`rep_avail` comprehension. -/
def initAvail (ts : Calendar) (day slot : String) : Bool :=
  match slotState ts day slot with
  | some Option.none => true
  | _ => false

/-- `[slot for slot, state in slot_map.items() if state not in ("LUNCH", "BREAK")]`
from `build_random_timeslot_index`. -/
def openSlots (slot_map : List (String × SlotState)) : List String :=
  (slot_map.filter (fun p => !(p.2 == some "LUNCH" || p.2 == some "BREAK"))).map Prod.fst

/-- The resolution tier returned by `resolve_request` (the strings `"rep"`,
`"subcat"`, `"category"`, `"none"` in the Python source; the spec calls them
`ExactRep`, `Subcategory`, `Category`, `Unresolved`). -/
inductive RType where
  | rep
  | subcat
  | category
  | unresolved
deriving DecidableEq, Repr

/-- Candidate order for a subcategory match: `sort_values("Subcat Rank")`,
ascending.  (pandas leaves the order of equal ranks unspecified; the
embedding uses the stable `insertionSort`.) -/
def subRankLE (a b : Rep) : Prop := a.subcatRank ≤ b.subcatRank

/-- Candidate order for a category match: `sort_values("Cat Rank")`,
ascending. -/
def catRankLE (a b : Rep) : Prop := a.catRank ≤ b.catRank

instance : DecidableRel subRankLE := fun a b => Nat.decLe a.subcatRank b.subcatRank

instance : DecidableRel catRankLE := fun a b => Nat.decLe a.catRank b.catRank

instance : IsTotal Rep subRankLE := ⟨fun a b => Nat.le_total a.subcatRank b.subcatRank⟩

instance : IsTrans Rep subRankLE := ⟨fun _ _ _ h h' => Nat.le_trans h h'⟩

instance : IsTotal Rep catRankLE := ⟨fun a b => Nat.le_total a.catRank b.catRank⟩

instance : IsTrans Rep catRankLE := ⟨fun _ _ _ h h' => Nat.le_trans h h'⟩

/-- Helper for `pyStrip`: drop leading whitespace characters. -/
def dropWhileWS : List Char → List Char
  | [] => []
  | c :: rest => if c.isWhitespace then dropWhileWS rest else c :: rest

/-- Python's `str.strip()`: remove whitespace from both ends of the
string (drop trailing whitespace via the reversed character list, then
leading whitespace). -/
def pyStrip (s : String) : String :=
  String.mk (dropWhileWS (dropWhileWS s.data.reverse).reverse)

/-- `resolve_request(request, reps_df)`: strip the raw string
(`str(request).strip()` embedded as `pyStrip`), then try in order an
exact name match, an exact subcategory match (sorted by `Subcat Rank`), an
exact category match (sorted by `Cat Rank`), and finally no match. -/
def resolve_request (request : String) (reps_df : List Rep) : List Rep × RType :=
  let req := pyStrip request
  let exact := reps_df.filter (fun r => r.name == req)
  if exact.length > 0 then
    (exact, RType.rep)
  else
    let sub := reps_df.filter (fun r => r.subcategory == req)
    if sub.length > 0 then
      (sub.insertionSort subRankLE, RType.subcat)
    else
      let cat := reps_df.filter (fun r => r.category == req)
      if cat.length > 0 then
        (cat.insertionSort catRankLE, RType.category)
      else
        ([], RType.unresolved)

/-- The accumulator loop of `request_specificity` (`best` starts at 3; an
exact-rep match returns 0 immediately). -/
def request_specificity_go (reps_df : List Rep) (best : Nat) : List String → Nat
  | [] => best
  | req :: rest =>
    match (resolve_request req reps_df).2 with
    | RType.rep => 0
    | RType.subcat => request_specificity_go reps_df (min best 1) rest
    | RType.category => request_specificity_go reps_df (min best 2) rest
    | RType.unresolved => request_specificity_go reps_df best rest

/-- `request_specificity(req_list, reps_df)`. -/
def request_specificity (req_list : List String) (reps_df : List Rep) : Nat :=
  request_specificity_go reps_df 3 req_list

/-- `build_random_timeslot_index(reps_df)`: for every rep and day, the
non-blackout slots of that day in a freshly shuffled order.  The
`np.random.shuffle` draw is the explicit `shuffle` argument (one independent
draw per rep/day pair); the Python dict over the reps of `reps_df` and the
days of `time_slots` is embedded as a total function (it is only ever indexed
at those keys). -/
def build_random_timeslot_index (ts : Calendar)
    (shuffle : String → String → List String → List String) :
    String → String → List String :=
  fun rep day => shuffle rep day (openSlots ((ts.lookup day).getD []))

/-- A genuine random draw: every shuffle result is a permutation of its
input. -/
def ShuffleOK (shuffle : String → String → List String → List String) : Prop :=
  ∀ rep day l, (shuffle rep day l).Perm l

/-- One row of the `supplier_rows` / `rep_rows` tables (both hold the same
fields, in different column orders). -/
structure Row where
  supplier : String
  booth : String
  day : String
  timeslot : String
  rep : String
  category : String
deriving DecidableEq, Repr

/-- `supplier_used`: the `(day, timeslot)` pairs of the rows of this
supplier, as computed at the top of `_find_balanced_timeslot`. -/
def supplierUsed (supplier_rows : List Row) (supplier : String) : List (String × String) :=
  (supplier_rows.filter (fun row => row.supplier == supplier)).map
    (fun row => (row.day, row.timeslot))

/-- `_find_balanced_timeslot`: rotate the day list by `day_start_idx`, then
for each day walk the rep's shuffled slot order and return the first slot
that is not a blackout, not already used by this supplier, and free for the
rep. -/
def _find_balanced_timeslot (ts : Calendar) (supplier rep : String)
    (supplier_rows : List Row)
    (rep_avail : String → String → String → Bool)
    (rep_timeslot_order : String → String → List String)
    (day_start_idx : Nat) : Option (String × String) :=
  let supplier_used := supplierUsed supplier_rows supplier
  let days := ts.map Prod.fst
  let rotated := days.drop day_start_idx ++ days.take day_start_idx
  rotated.findSome? (fun day =>
    ((rep_timeslot_order rep day).find? (fun slot =>
        !(isBlackoutSlot ts day slot) &&
        !(supplier_used.contains (day, slot)) &&
        rep_avail rep day slot)).map (fun slot => (day, slot)))

/-- Per-supplier summary record (the dict literal assigned to
`supplier_summary[supplier]`).  `categoryCounts` embeds the
`category_counts` dict as a total function with default 0 (the code reads it
only through `.get(request, 0)`). -/
structure Summary where
  requested : List String
  fulfilled : List String
  categoryCounts : String → Nat

/-- Python dict assignment `d[k] = v` on an association list: replace in
place when the key exists, append otherwise. -/
def setKey (k : String) (v : Summary) : List (String × Summary) → List (String × Summary)
  | [] => [(k, v)]
  | (k', v') :: rest => if k' == k then (k, v) :: rest else (k', v') :: setKey k v rest

/-- In-place mutation of the value at an existing key `k` (`d[k]["…"] = …`);
identity when the key is absent (the code only mutates keys it has set). -/
def modifyKey (k : String) (f : Summary → Summary) :
    List (String × Summary) → List (String × Summary)
  | [] => []
  | (k', v') :: rest =>
    if k' == k then (k', f v') :: rest else (k', v') :: modifyKey k f rest

/-- The mutable per-pass state of `run_scheduler`: `rep_avail`,
`rep_meeting_count`, `supplier_meeting_count` (total functions over names),
the two growing row tables, and `supplier_summary`. -/
structure SchedState where
  repAvail : String → String → String → Bool
  repCount : String → Nat
  suppCount : String → Nat
  supplierRows : List Row
  repRows : List Row
  summary : List (String × Summary)

/-- The candidate loop `for _, rep_row in rep_candidates.iterrows()`: skip a
candidate at or over the per-rep cap, otherwise run the slot search; the
Python guard `if day and slot` (string truthiness) accepts the result only
when both strings are non-empty. -/
def findCandidate (ts : Calendar) (max_meetings_rep : Nat) (supplier : String)
    (supplier_rows : List Row)
    (rep_avail : String → String → String → Bool)
    (rep_count : String → Nat)
    (rep_timeslot_order : String → String → List String)
    (day_start_idx : Nat) : List Rep → Option (Rep × String × String)
  | [] => Option.none
  | r :: rest =>
    if max_meetings_rep ≤ rep_count r.name then
      findCandidate ts max_meetings_rep supplier supplier_rows rep_avail rep_count
        rep_timeslot_order day_start_idx rest
    else
      match _find_balanced_timeslot ts supplier r.name supplier_rows rep_avail
          rep_timeslot_order day_start_idx with
      | some (day, slot) =>
        if day != "" && slot != "" then
          some (r, day, slot)
        else
          findCandidate ts max_meetings_rep supplier supplier_rows rep_avail rep_count
            rep_timeslot_order day_start_idx rest
      | Option.none =>
        findCandidate ts max_meetings_rep supplier supplier_rows rep_avail rep_count
          rep_timeslot_order day_start_idx rest

/-- The category label attached to a committed meeting (`rep_row` is the
assigned candidate's record, `request` the raw request string). -/
def categoryLabel (req_type : RType) (rep_row : Rep) (request : String) : String :=
  match req_type with
  | RType.rep => rep_row.category
  | RType.subcat => rep_row.subcategory
  | RType.category => rep_row.category
  | RType.unresolved => request

/-- The commit block of `run_scheduler` (lines 227–263): append the meeting
to both tables, mark the rep's slot busy, bump both counters, append the
request to the supplier's fulfilled list and bump its category count. -/
def commitMeeting (supplier booth : String) (request : String) (req_type : RType)
    (rep_row : Rep) (day slot : String) (st : SchedState) : SchedState :=
  let label := categoryLabel req_type rep_row request
  let newRow : Row :=
    { supplier := supplier, booth := booth, day := day, timeslot := slot,
      rep := rep_row.name, category := label }
  { repAvail := fun r d s =>
      if r == rep_row.name && d == day && s == slot then false else st.repAvail r d s
    repCount := fun r => if r == rep_row.name then st.repCount r + 1 else st.repCount r
    suppCount := fun s => if s == supplier then st.suppCount s + 1 else st.suppCount s
    supplierRows := st.supplierRows ++ [newRow]
    repRows := st.repRows ++ [newRow]
    summary := modifyKey supplier (fun sm =>
      { sm with
        fulfilled := sm.fulfilled ++ [request]
        categoryCounts := fun q =>
          if q == request then sm.categoryCounts q + 1 else sm.categoryCounts q }) st.summary }

/-- The body of the request loop for one request (resolution, candidate
walk, and commit). -/
def processOneRequest (ts : Calendar) (reps_df : List Rep) (max_meetings_rep : Nat)
    (supplier booth : String) (day_start_idx : Nat)
    (rep_timeslot_order : String → String → List String)
    (st : SchedState) (request : String) : SchedState :=
  let rc := resolve_request request reps_df
  if rc.1.isEmpty then st
  else
    match findCandidate ts max_meetings_rep supplier st.supplierRows st.repAvail
        st.repCount rep_timeslot_order day_start_idx rc.1 with
    | Option.none => st
    | some (rep_row, day, slot) =>
      commitMeeting supplier booth request rc.2 rep_row day slot st

/-- The request loop `for request in req_list`, with the cap check
`if supplier_meeting_count[supplier] >= cap: break` at the top of each
iteration. -/
def processRequests (ts : Calendar) (reps_df : List Rep) (max_meetings_rep cap : Nat)
    (supplier booth : String) (day_start_idx : Nat)
    (rep_timeslot_order : String → String → List String)
    (st : SchedState) : List String → SchedState
  | [] => st
  | request :: rest =>
    if cap ≤ st.suppCount supplier then st
    else
      processRequests ts reps_df max_meetings_rep cap supplier booth day_start_idx
        rep_timeslot_order
        (processOneRequest ts reps_df max_meetings_rep supplier booth day_start_idx
          rep_timeslot_order st request) rest

/-- The supplier's cap: `max_peak if s_type == "Peak" else max_acc`. -/
def capOf (max_peak max_acc : Nat) (supp : Supplier) : Nat :=
  if supp.stype == "Peak" then max_peak else max_acc

/-- The body of `for _, supp in ordered_suppliers.iterrows()`: reset this
supplier's meeting counter, install its fresh summary record, run the request
loop, then deduplicate the fulfilled list (`list(set(...))`, embedded as
`dedup`; Python's set order is unspecified, and no property below depends on
the order of `fulfilled`). -/
def processSupplier (ts : Calendar) (reps_df : List Rep)
    (preferences : String → List String) (max_meetings_rep max_peak max_acc : Nat)
    (day_start : String → Nat)
    (rep_timeslot_order : String → String → List String)
    (st : SchedState) (supp : Supplier) : SchedState :=
  let cap := capOf max_peak max_acc supp
  let req_list := preferences supp.name
  let st1 : SchedState :=
    { st with suppCount := fun s => if s == supp.name then 0 else st.suppCount s }
  let freshSummary : Summary :=
    { requested := req_list, fulfilled := [], categoryCounts := fun _ => 0 }
  let st2 : SchedState := { st1 with summary := setKey supp.name freshSummary st1.summary }
  let st3 := processRequests ts reps_df max_meetings_rep cap supp.name supp.booth
    (day_start supp.name) rep_timeslot_order st2 req_list
  let dedupSummary := modifyKey supp.name
    (fun sm => { sm with fulfilled := sm.fulfilled.dedup }) st3.summary
  { st3 with summary := dedupSummary }

/-- The sort key `col.map({"Peak": 0, "Accelerating": 1})`; any other type
maps to NaN, which pandas places last — embedded as 2. -/
def typeOrd (t : String) : Nat :=
  if t == "Peak" then 0 else if t == "Accelerating" then 1 else 2

/-- The supplier processing order of `sort_values(by=["Type", "Specificity"])`:
primary key mapped priority type, secondary key request specificity.  pandas'
multi-key sort (lexsort) is stable, matching `insertionSort`. -/
def supplierLE (reps_df : List Rep) (preferences : String → List String)
    (a b : Supplier) : Prop :=
  typeOrd a.stype < typeOrd b.stype ∨
    (typeOrd a.stype = typeOrd b.stype ∧
      request_specificity (preferences a.name) reps_df ≤
        request_specificity (preferences b.name) reps_df)

instance (reps_df : List Rep) (preferences : String → List String) :
    DecidableRel (supplierLE reps_df preferences) := fun a b => by
  unfold supplierLE; infer_instance

instance (reps_df : List Rep) (preferences : String → List String) :
    IsTotal Supplier (supplierLE reps_df preferences) := by
  constructor
  intro a b
  rcases Nat.lt_trichotomy (typeOrd a.stype) (typeOrd b.stype) with h | h | h
  · exact Or.inl (Or.inl h)
  · rcases Nat.le_total (request_specificity (preferences a.name) reps_df)
        (request_specificity (preferences b.name) reps_df) with h' | h'
    · exact Or.inl (Or.inr ⟨h, h'⟩)
    · exact Or.inr (Or.inr ⟨h.symm, h'⟩)
  · exact Or.inr (Or.inl h)

instance (reps_df : List Rep) (preferences : String → List String) :
    IsTrans Supplier (supplierLE reps_df preferences) := by
  constructor
  intro a b c hab hbc
  rcases hab with h1 | ⟨h1, h1'⟩
  · rcases hbc with h2 | ⟨h2, _⟩
    · exact Or.inl (Nat.lt_trans h1 h2)
    · exact Or.inl (h2 ▸ h1)
  · rcases hbc with h2 | ⟨h2, h2'⟩
    · exact Or.inl (h1 ▸ h2)
    · exact Or.inr ⟨h1.trans h2, h1'.trans h2'⟩

/-- `ordered_suppliers`: the suppliers sorted by (type, specificity). -/
def ordered_suppliers (suppliers_df : List Supplier) (reps_df : List Rep)
    (preferences : String → List String) : List Supplier :=
  suppliers_df.insertionSort (supplierLE reps_df preferences)

/-- `supplier_day_start_index`: Python builds a dict by enumerating the
ordered supplier list, so a duplicated name keeps its last index; the value
is the index modulo the number of days. -/
def supplier_day_start_index (ts : Calendar) (names : List String) (s : String) : Nat :=
  match ((names.enum.filter (fun p => p.2 == s)).map Prod.fst).getLast? with
  | some i => i % ts.length
  | Option.none => 0

/-- Output ordering of the supplier table:
`sort_values(["supplier", "day", "timeslot"])`. -/
def rowLEsupplier (a b : Row) : Prop :=
  a.supplier < b.supplier ∨
    (a.supplier = b.supplier ∧
      (a.day < b.day ∨ (a.day = b.day ∧ a.timeslot ≤ b.timeslot)))

/-- Output ordering of the rep table: `sort_values(["rep", "day", "timeslot"])`. -/
def rowLErep (a b : Row) : Prop :=
  a.rep < b.rep ∨
    (a.rep = b.rep ∧ (a.day < b.day ∨ (a.day = b.day ∧ a.timeslot ≤ b.timeslot)))

instance : DecidableRel rowLEsupplier := fun a b => by unfold rowLEsupplier; infer_instance

instance : DecidableRel rowLErep := fun a b => by unfold rowLErep; infer_instance

/-- The initial scheduling state built at the top of `run_scheduler`
(`rep_avail` from the calendar blackouts, all counters zero, empty tables;
the Python dicts keyed by the reps of `reps_df` are embedded as total
functions, indexed only at those reps). -/
def initState (ts : Calendar) : SchedState :=
  { repAvail := fun _ day slot => initAvail ts day slot
    repCount := fun _ => 0
    suppCount := fun _ => 0
    supplierRows := []
    repRows := []
    summary := [] }

/-- `run_scheduler(suppliers_df, reps_df, preferences, max_meetings_rep,
max_peak, max_acc)`: one full assignment pass.  Returns the supplier-sorted
meeting table, the rep-sorted meeting table, and the supplier summary.  The
function performs exactly one pass over one random draw (`shuffle`): it has
no seeds parameter and no multi-seed loop. -/
def run_scheduler (ts : Calendar) (suppliers_df : List Supplier) (reps_df : List Rep)
    (preferences : String → List String)
    (max_meetings_rep max_peak max_acc : Nat)
    (shuffle : String → String → List String → List String) :
    List Row × List Row × List (String × Summary) :=
  let rep_timeslot_order := build_random_timeslot_index ts shuffle
  let ordered := ordered_suppliers suppliers_df reps_df preferences
  let suppliers_list := ordered.map (fun s => s.name)
  let day_start := supplier_day_start_index ts suppliers_list
  let final := ordered.foldl
    (fun st supp => processSupplier ts reps_df preferences max_meetings_rep max_peak
      max_acc day_start rep_timeslot_order st supp)
    (initState ts)
  (final.supplierRows.insertionSort rowLEsupplier,
   final.repRows.insertionSort rowLErep,
   final.summary)

/-- The substitution log read by `app.py`'s `attach_substitutions`:
`summary.get("substitutions", {})`.  `run_scheduler` never writes a
`"substitutions"` key into any summary record, so the lookup always yields
the empty dict. -/
def substitutionsLog (_ : Summary) : List (String × List String) := []

/-- `app.py` line 253–256: the validation list of suppliers absent from the
summary mapping. -/
def missingSuppliers (suppliers_df : List Supplier)
    (summary : List (String × Summary)) : List String :=
  (suppliers_df.map (fun s => s.name)).filter
    (fun s => !((summary.map Prod.fst).contains s))

/-- Total number of unfulfilled requests of a summary, summed across all
suppliers (spec §4.6: requested entries that produced no meeting). -/
def unfulfilledTotal (summary : List (String × Summary)) : Nat :=
  (summary.map (fun p =>
    (p.2.requested.filter (fun r => !(p.2.fulfilled.contains r))).length)).sum

/-- Two meeting rows clash in neither the rep calendar nor the supplier
calendar: they differ on `(rep, day, slot)` and on `(supplier, day, slot)`. -/
def RowOK (a b : Row) : Prop :=
  ¬(a.rep = b.rep ∧ a.day = b.day ∧ a.timeslot = b.timeslot) ∧
  ¬(a.supplier = b.supplier ∧ a.day = b.day ∧ a.timeslot = b.timeslot)

/-- Number of meetings of supplier `s` in a row table. -/
def countSupp (rows : List Row) (s : String) : Nat :=
  (rows.filter (fun row => row.supplier == s)).length

/-- Number of meetings of rep `rname` in a row table. -/
def countRep (rows : List Row) (rname : String) : Nat :=
  (rows.filter (fun row => row.rep == rname)).length

/-- The inductive invariant of the assignment loop: the two row tables march
in step; every recorded meeting has its rep slot marked busy; the per-rep
counter counts that rep's rows and never exceeds the per-rep cap; no two
rows clash; no row sits on a blackout slot. -/
structure StInv (ts : Calendar) (max_meetings_rep : Nat) (st : SchedState) : Prop where
  rowsEq : st.repRows = st.supplierRows
  availFalse : ∀ row ∈ st.supplierRows, st.repAvail row.rep row.day row.timeslot = false
  repCountEq : ∀ rname : String, st.repCount rname = countRep st.supplierRows rname
  repCapLe : ∀ rname : String, st.repCount rname ≤ max_meetings_rep
  pairwiseOK : st.supplierRows.Pairwise RowOK
  noBlackout : ∀ row ∈ st.supplierRows, isBlackoutSlot ts row.day row.timeslot = false

/-! ### Concrete data for witnesses and counterexamples -/

/-- A one-day calendar with two open slots. -/
def calA : Calendar := [("D1", [("t1", Option.none), ("t2", Option.none)])]

/-- A two-day calendar with an open and a lunch slot each day. -/
def calB : Calendar :=
  [("D1", [("t1", Option.none), ("t2", some "LUNCH")]),
   ("D2", [("t1", some "BREAK"), ("t2", Option.none)])]

def repA : Rep :=
  { name := "A", category := "CA", subcategory := "SA", catRank := 1, subcatRank := 1,
    leadership := "Key-Leader", region := "R1", segment := "G1" }

def repB : Rep :=
  { name := "B", category := "CB", subcategory := "SB", catRank := 1, subcatRank := 1,
    leadership := "District-Leader", region := "R1", segment := "G1" }

def ann : Rep :=
  { name := "Ann", category := "CX", subcategory := "SX", catRank := 1, subcatRank := 1,
    leadership := "Key-Leader", region := "R1", segment := "G1" }

def bob : Rep :=
  { name := "Bob", category := "CY", subcategory := "SY", catRank := 2, subcatRank := 2,
    leadership := "District-Leader", region := "R1", segment := "G1" }

def alice : Rep :=
  { name := "Alice", category := "C", subcategory := "S", catRank := 1, subcatRank := 1,
    leadership := "Key-Leader", region := "R1", segment := "G1" }

def sup1 : Supplier := { name := "S1", booth := "1", stype := "Peak" }

def sup2 : Supplier := { name := "S2", booth := "2", stype := "Peak" }

/-- Preferences for the draw-dependence scenario: `S1` asks for rep `B`,
`S2` asks for reps `A` then `B`. -/
def prefsAB : String → List String :=
  fun s => if s == "S1" then ["B"] else if s == "S2" then ["A", "B"] else []

/-- Preferences for the substitution scenario: both suppliers request the
Key-Leader `Ann` by name. -/
def prefsAnn : String → List String :=
  fun s => if s == "S1" then ["Ann"] else if s == "S2" then ["Ann"] else []

/-- The identity draw (keeps each day's open slots in calendar order). -/
def shuffleId : String → String → List String → List String := fun _ _ l => l

/-- A draw that reverses rep `A`'s slot order and keeps the others. -/
def shuffleRevA : String → String → List String → List String :=
  fun rep _ l => if rep == "A" then l.reverse else l

/-! ## Lemmas about the slot search -/

theorem find_balanced_spec (ts : Calendar) (supplier rep : String)
    (supplier_rows : List Row) (rep_avail : String → String → String → Bool)
    (rep_timeslot_order : String → String → List String) (day_start_idx : Nat)
    (d s : String)
    (h : _find_balanced_timeslot ts supplier rep supplier_rows rep_avail
      rep_timeslot_order day_start_idx = some (d, s)) :
    isBlackoutSlot ts d s = false ∧
    (supplierUsed supplier_rows supplier).contains (d, s) = false ∧
    rep_avail rep d s = true ∧
    d ∈ ts.map Prod.fst ∧ s ∈ rep_timeslot_order rep d := by
  simp only [_find_balanced_timeslot] at h
  obtain ⟨day, hmem, hf⟩ := List.exists_of_findSome?_eq_some h
  rw [Option.map_eq_some'] at hf
  obtain ⟨slot, hfind, heq⟩ := hf
  obtain ⟨rfl, rfl⟩ : day = d ∧ slot = s := by
    simpa [Prod.ext_iff, and_comm] using heq
  have hp := List.find?_some hfind
  have hsl := List.mem_of_find?_eq_some hfind
  simp only [Bool.and_eq_true, Bool.not_eq_true'] at hp
  refine ⟨hp.1.1, hp.1.2, hp.2, ?_, hsl⟩
  rcases List.mem_append.mp hmem with h' | h'
  · exact List.mem_of_mem_drop h'
  · exact List.mem_of_mem_take h'

theorem findCandidate_spec (ts : Calendar) (max_meetings_rep : Nat) (supplier : String)
    (supplier_rows : List Row) (rep_avail : String → String → String → Bool)
    (rep_count : String → Nat) (rep_timeslot_order : String → String → List String)
    (day_start_idx : Nat) (r : Rep) (d s : String) :
    ∀ cands : List Rep,
      findCandidate ts max_meetings_rep supplier supplier_rows rep_avail rep_count
        rep_timeslot_order day_start_idx cands = some (r, d, s) →
      r ∈ cands ∧ rep_count r.name < max_meetings_rep ∧
      _find_balanced_timeslot ts supplier r.name supplier_rows rep_avail
        rep_timeslot_order day_start_idx = some (d, s) ∧
      d ≠ "" ∧ s ≠ "" := by
  intro cands
  induction cands with
  | nil => intro h; simp [findCandidate] at h
  | cons c rest ih =>
    intro h
    rw [findCandidate] at h
    by_cases hcap : max_meetings_rep ≤ rep_count c.name
    · rw [if_pos hcap] at h
      obtain ⟨hm, hrest⟩ := ih h
      exact ⟨List.mem_cons_of_mem _ hm, hrest⟩
    · rw [if_neg hcap] at h
      cases hfb : _find_balanced_timeslot ts supplier c.name supplier_rows rep_avail
          rep_timeslot_order day_start_idx with
      | none =>
        rw [hfb] at h
        dsimp only at h
        obtain ⟨hm, hrest⟩ := ih h
        exact ⟨List.mem_cons_of_mem _ hm, hrest⟩
      | some pair =>
        obtain ⟨day, slot⟩ := pair
        rw [hfb] at h
        dsimp only at h
        by_cases hne : (day != "" && slot != "") = true
        · rw [if_pos hne] at h
          obtain ⟨rfl, rfl, rfl⟩ : c = r ∧ day = d ∧ slot = s := by
            simpa [Prod.ext_iff] using h
          simp only [Bool.and_eq_true, bne_iff_ne, ne_eq] at hne
          exact ⟨List.mem_cons_self c rest, Nat.lt_of_not_le hcap, hfb, hne.1, hne.2⟩
        · rw [if_neg hne] at h
          obtain ⟨hm, hrest⟩ := ih h
          exact ⟨List.mem_cons_of_mem _ hm, hrest⟩

/-- The two possible outcomes of one request: either the state is returned
untouched, or a single meeting is committed for a candidate of the resolved
list that was under its cap, free on a non-blackout slot the supplier had not
used. -/
theorem processOneRequest_cases (ts : Calendar) (reps_df : List Rep)
    (max_meetings_rep : Nat) (supplier booth : String) (day_start_idx : Nat)
    (rep_timeslot_order : String → String → List String)
    (st : SchedState) (request : String) :
    processOneRequest ts reps_df max_meetings_rep supplier booth day_start_idx
        rep_timeslot_order st request = st ∨
    ∃ (r : Rep) (d s : String),
      r ∈ (resolve_request request reps_df).1 ∧
      st.repCount r.name < max_meetings_rep ∧
      st.repAvail r.name d s = true ∧
      (supplierUsed st.supplierRows supplier).contains (d, s) = false ∧
      isBlackoutSlot ts d s = false ∧
      d ≠ "" ∧ s ≠ "" ∧
      processOneRequest ts reps_df max_meetings_rep supplier booth day_start_idx
        rep_timeslot_order st request =
        commitMeeting supplier booth request (resolve_request request reps_df).2 r d s st := by
  by_cases hemp : (resolve_request request reps_df).1.isEmpty
  · left
    simp [processOneRequest, hemp]
  · cases hfc : findCandidate ts max_meetings_rep supplier st.supplierRows st.repAvail
        st.repCount rep_timeslot_order day_start_idx (resolve_request request reps_df).1 with
    | none =>
      left
      simp [processOneRequest, hemp, hfc]
    | some triple =>
      obtain ⟨r, d, s⟩ := triple
      right
      obtain ⟨hmem, hcap, hfb, hd, hs⟩ := findCandidate_spec ts max_meetings_rep supplier
        st.supplierRows st.repAvail st.repCount rep_timeslot_order day_start_idx r d s _ hfc
      obtain ⟨hblack, hused, havail, _, _⟩ := find_balanced_spec ts supplier r.name
        st.supplierRows st.repAvail rep_timeslot_order day_start_idx d s hfb
      refine ⟨r, d, s, hmem, hcap, havail, hused, hblack, hd, hs, ?_⟩
      simp [processOneRequest, hemp, hfc]

/-- `RowOK` is symmetric. -/
theorem rowOK_symm : ∀ {a b : Row}, RowOK a b → RowOK b a := by
  intro a b h
  refine ⟨fun hc => h.1 ?_, fun hc => h.2 ?_⟩
  · exact ⟨hc.1.symm, hc.2.1.symm, hc.2.2.symm⟩
  · exact ⟨hc.1.symm, hc.2.1.symm, hc.2.2.symm⟩

/-- Committing a meeting that passed all the checks preserves the loop
invariant. -/
theorem commitMeeting_inv (ts : Calendar) (max_meetings_rep : Nat)
    (supplier booth request : String) (rt : RType) (r : Rep) (d s : String)
    (st : SchedState) (hinv : StInv ts max_meetings_rep st)
    (hcap : st.repCount r.name < max_meetings_rep)
    (havail : st.repAvail r.name d s = true)
    (hused : (supplierUsed st.supplierRows supplier).contains (d, s) = false)
    (hblack : isBlackoutSlot ts d s = false) :
    StInv ts max_meetings_rep (commitMeeting supplier booth request rt r d s st) := by
  constructor
  · simp only [commitMeeting]
    rw [hinv.rowsEq]
  · intro row hrow
    simp only [commitMeeting, List.mem_append, List.mem_singleton] at hrow
    rcases hrow with hold | rfl
    · simp only [commitMeeting]
      by_cases hcond : (row.rep == r.name && row.day == d && row.timeslot == s) = true
      · rw [if_pos hcond]
      · rw [if_neg hcond]
        exact hinv.availFalse row hold
    · simp only [commitMeeting]
      rw [if_pos (by simp)]
  · intro rname
    simp only [commitMeeting, countRep, List.filter_append, List.length_append]
    have hcnt := hinv.repCountEq rname
    simp only [countRep] at hcnt
    by_cases hr : rname = r.name
    · rw [if_pos (by simpa using hr), hcnt]
      simp [hr]
    · rw [if_neg (by simpa using hr), hcnt]
      have hne : ((r.name : String) == rname) = false := by
        simpa using fun hh => hr hh.symm
      simp [hne]
  · intro rname
    simp only [commitMeeting]
    by_cases hr : rname = r.name
    · subst hr
      rw [if_pos (by simp)]
      exact hcap
    · rw [if_neg (by simpa using hr)]
      exact hinv.repCapLe rname
  · simp only [commitMeeting]
    rw [List.pairwise_append]
    refine ⟨hinv.pairwiseOK, List.pairwise_singleton _ _, ?_⟩
    intro a ha b hb
    rw [List.mem_singleton] at hb
    subst hb
    constructor
    · rintro ⟨h1, h2, h3⟩
      have := hinv.availFalse a ha
      rw [h1, h2, h3] at this
      rw [this] at havail
      exact Bool.false_ne_true havail
    · rintro ⟨h1, h2, h3⟩
      have hmem' : ((d, s) : String × String) ∈ supplierUsed st.supplierRows supplier := by
        simp only [supplierUsed, List.mem_map]
        refine ⟨a, ?_, by rw [h2, h3]⟩
        rw [List.mem_filter]
        exact ⟨ha, by simp [h1]⟩
      have htrue : (supplierUsed st.supplierRows supplier).contains (d, s) = true :=
        List.elem_eq_true_of_mem hmem'
      rw [htrue] at hused
      simp at hused
  · intro row hrow
    simp only [commitMeeting, List.mem_append, List.mem_singleton] at hrow
    rcases hrow with hold | rfl
    · exact hinv.noBlackout row hold
    · exact hblack

/-- The invariant ignores the supplier counter and the summary. -/
theorem StInv_update_aux (ts : Calendar) (max_meetings_rep : Nat) (st : SchedState)
    (sc : String → Nat) (sum : List (String × Summary))
    (hinv : StInv ts max_meetings_rep st) :
    StInv ts max_meetings_rep { st with suppCount := sc, summary := sum } :=
  ⟨hinv.rowsEq, hinv.availFalse, hinv.repCountEq, hinv.repCapLe, hinv.pairwiseOK,
    hinv.noBlackout⟩

theorem processOneRequest_inv (ts : Calendar) (reps_df : List Rep)
    (max_meetings_rep : Nat) (supplier booth : String) (day_start_idx : Nat)
    (rep_timeslot_order : String → String → List String)
    (st : SchedState) (request : String) (hinv : StInv ts max_meetings_rep st) :
    StInv ts max_meetings_rep
      (processOneRequest ts reps_df max_meetings_rep supplier booth day_start_idx
        rep_timeslot_order st request) := by
  rcases processOneRequest_cases ts reps_df max_meetings_rep supplier booth day_start_idx
      rep_timeslot_order st request with h | ⟨r, d, s, _, hcap, havail, hused, hblack, _, _, h⟩
  · rw [h]; exact hinv
  · rw [h]
    exact commitMeeting_inv ts max_meetings_rep supplier booth request _ r d s st hinv
      hcap havail hused hblack

theorem processRequests_inv (ts : Calendar) (reps_df : List Rep)
    (max_meetings_rep cap : Nat) (supplier booth : String) (day_start_idx : Nat)
    (rep_timeslot_order : String → String → List String) :
    ∀ (reqs : List String) (st : SchedState), StInv ts max_meetings_rep st →
      StInv ts max_meetings_rep
        (processRequests ts reps_df max_meetings_rep cap supplier booth day_start_idx
          rep_timeslot_order st reqs) := by
  intro reqs
  induction reqs with
  | nil => intro st hinv; exact hinv
  | cons request rest ih =>
    intro st hinv
    rw [processRequests]
    by_cases hcap : cap ≤ st.suppCount supplier
    · rw [if_pos hcap]; exact hinv
    · rw [if_neg hcap]
      exact ih _ (processOneRequest_inv ts reps_df max_meetings_rep supplier booth
        day_start_idx rep_timeslot_order st request hinv)

theorem processSupplier_inv (ts : Calendar) (reps_df : List Rep)
    (preferences : String → List String) (max_meetings_rep max_peak max_acc : Nat)
    (day_start : String → Nat) (rep_timeslot_order : String → String → List String)
    (st : SchedState) (supp : Supplier) (hinv : StInv ts max_meetings_rep st) :
    StInv ts max_meetings_rep
      (processSupplier ts reps_df preferences max_meetings_rep max_peak max_acc
        day_start rep_timeslot_order st supp) := by
  simp only [processSupplier]
  have h2 := StInv_update_aux ts max_meetings_rep st
    (fun s => if s == supp.name then 0 else st.suppCount s)
    (setKey supp.name
      { requested := preferences supp.name, fulfilled := [], categoryCounts := fun _ => 0 }
      st.summary) hinv
  have h3 := processRequests_inv ts reps_df max_meetings_rep
    (capOf max_peak max_acc supp) supp.name supp.booth (day_start supp.name)
    rep_timeslot_order (preferences supp.name) _ h2
  exact StInv_update_aux ts max_meetings_rep _ _ _ h3

theorem foldl_inv (ts : Calendar) (reps_df : List Rep)
    (preferences : String → List String) (max_meetings_rep max_peak max_acc : Nat)
    (day_start : String → Nat) (rep_timeslot_order : String → String → List String) :
    ∀ (L : List Supplier) (st : SchedState), StInv ts max_meetings_rep st →
      StInv ts max_meetings_rep
        (L.foldl (fun st supp => processSupplier ts reps_df preferences max_meetings_rep
          max_peak max_acc day_start rep_timeslot_order st supp) st) := by
  intro L
  induction L with
  | nil => intro st hinv; exact hinv
  | cons supp rest ih =>
    intro st hinv
    exact ih _ (processSupplier_inv ts reps_df preferences max_meetings_rep max_peak
      max_acc day_start rep_timeslot_order st supp hinv)

theorem initState_inv (ts : Calendar) (max_meetings_rep : Nat) :
    StInv ts max_meetings_rep (initState ts) := by
  constructor
  · rfl
  · intro row hrow; exact absurd hrow (List.not_mem_nil row)
  · intro rname; rfl
  · intro rname; exact Nat.zero_le _
  · exact List.Pairwise.nil
  · intro row hrow; exact absurd hrow (List.not_mem_nil row)

/-- C4: in every pass, for every pair of distinct meetings of either output
table, the two meetings do not share the same `(rep, day, slot)` and do not
share the same `(supplier, day, slot)` — for any inputs and any random
draw. -/
theorem run_scheduler_no_double_booking (ts : Calendar) (suppliers_df : List Supplier)
    (reps_df : List Rep) (preferences : String → List String)
    (max_meetings_rep max_peak max_acc : Nat)
    (shuffle : String → String → List String → List String) :
    (run_scheduler ts suppliers_df reps_df preferences max_meetings_rep max_peak
      max_acc shuffle).1.Pairwise RowOK ∧
    (run_scheduler ts suppliers_df reps_df preferences max_meetings_rep max_peak
      max_acc shuffle).2.1.Pairwise RowOK := by
  simp only [run_scheduler]
  have hfin := foldl_inv ts reps_df preferences max_meetings_rep max_peak max_acc
    (supplier_day_start_index ts
      ((ordered_suppliers suppliers_df reps_df preferences).map (fun s => s.name)))
    (build_random_timeslot_index ts shuffle)
    (ordered_suppliers suppliers_df reps_df preferences) (initState ts)
    (initState_inv ts max_meetings_rep)
  constructor
  · exact ((List.perm_insertionSort rowLEsupplier _).pairwise_iff
      (fun h => rowOK_symm h)).mpr hfin.pairwiseOK
  · have hp := hfin.pairwiseOK
    rw [← hfin.rowsEq] at hp
    exact ((List.perm_insertionSort rowLErep _).pairwise_iff
      (fun h => rowOK_symm h)).mpr hp

/-! ## Lemmas about the supplier cap -/

theorem countSupp_append (l₁ l₂ : List Row) (s : String) :
    countSupp (l₁ ++ l₂) s = countSupp l₁ s + countSupp l₂ s := by
  simp [countSupp, List.filter_append]

theorem countSupp_eq_zero (new : List Row) (n s' : String)
    (hnew : ∀ row ∈ new, row.supplier = n) (hne : n ≠ s') : countSupp new s' = 0 := by
  simp only [countSupp, List.length_eq_zero]
  rw [List.filter_eq_nil_iff]
  intro row hrow
  simp [hnew row hrow]
  exact fun hh => hne hh

theorem processOneRequest_rows (ts : Calendar) (reps_df : List Rep)
    (max_meetings_rep : Nat) (supplier booth : String) (day_start_idx : Nat)
    (rep_timeslot_order : String → String → List String)
    (st : SchedState) (request : String) :
    ∃ new, (processOneRequest ts reps_df max_meetings_rep supplier booth day_start_idx
        rep_timeslot_order st request).supplierRows = st.supplierRows ++ new ∧
      ∀ row ∈ new, row.supplier = supplier := by
  rcases processOneRequest_cases ts reps_df max_meetings_rep supplier booth day_start_idx
      rep_timeslot_order st request with h | ⟨r, d, s, _, _, _, _, _, _, _, h⟩
  · exact ⟨[], by rw [h, List.append_nil], by intro row hrow; simp at hrow⟩
  · refine ⟨_, by rw [h]; rfl, ?_⟩
    intro row hrow
    rw [List.mem_singleton] at hrow
    rw [hrow]

theorem processRequests_rows (ts : Calendar) (reps_df : List Rep)
    (max_meetings_rep cap : Nat) (supplier booth : String) (day_start_idx : Nat)
    (rep_timeslot_order : String → String → List String) :
    ∀ (reqs : List String) (st : SchedState),
      ∃ new, (processRequests ts reps_df max_meetings_rep cap supplier booth day_start_idx
          rep_timeslot_order st reqs).supplierRows = st.supplierRows ++ new ∧
        ∀ row ∈ new, row.supplier = supplier := by
  intro reqs
  induction reqs with
  | nil =>
    intro st
    exact ⟨[], by rw [processRequests, List.append_nil], by intro row hrow; simp at hrow⟩
  | cons request rest ih =>
    intro st
    rw [processRequests]
    by_cases hcap : cap ≤ st.suppCount supplier
    · rw [if_pos hcap]
      exact ⟨[], by rw [List.append_nil], by intro row hrow; simp at hrow⟩
    · rw [if_neg hcap]
      obtain ⟨new₁, h₁, hs₁⟩ := processOneRequest_rows ts reps_df max_meetings_rep supplier
        booth day_start_idx rep_timeslot_order st request
      obtain ⟨new₂, h₂, hs₂⟩ := ih (processOneRequest ts reps_df max_meetings_rep supplier
        booth day_start_idx rep_timeslot_order st request)
      refine ⟨new₁ ++ new₂, ?_, ?_⟩
      · rw [h₂, h₁, List.append_assoc]
      · intro row hrow
        rcases List.mem_append.mp hrow with h' | h'
        · exact hs₁ row h'
        · exact hs₂ row h'

theorem processOneRequest_suppCount (ts : Calendar) (reps_df : List Rep)
    (max_meetings_rep : Nat) (supplier booth : String) (day_start_idx : Nat)
    (rep_timeslot_order : String → String → List String)
    (st : SchedState) (request : String)
    (h : st.suppCount supplier = countSupp st.supplierRows supplier) :
    (processOneRequest ts reps_df max_meetings_rep supplier booth day_start_idx
        rep_timeslot_order st request).suppCount supplier =
      countSupp (processOneRequest ts reps_df max_meetings_rep supplier booth day_start_idx
        rep_timeslot_order st request).supplierRows supplier ∧
    (processOneRequest ts reps_df max_meetings_rep supplier booth day_start_idx
        rep_timeslot_order st request).suppCount supplier ≤ st.suppCount supplier + 1 := by
  rcases processOneRequest_cases ts reps_df max_meetings_rep supplier booth day_start_idx
      rep_timeslot_order st request with heq | ⟨r, d, s, _, _, _, _, _, _, _, heq⟩
  · rw [heq]
    exact ⟨h, Nat.le_succ _⟩
  · rw [heq]
    constructor
    · simp only [commitMeeting, countSupp_append]
      rw [if_pos (by simp), h]
      simp [countSupp]
    · simp only [commitMeeting]
      rw [if_pos (by simp)]

theorem processRequests_cap (ts : Calendar) (reps_df : List Rep)
    (max_meetings_rep cap : Nat) (supplier booth : String) (day_start_idx : Nat)
    (rep_timeslot_order : String → String → List String) :
    ∀ (reqs : List String) (st : SchedState),
      st.suppCount supplier = countSupp st.supplierRows supplier →
      (processRequests ts reps_df max_meetings_rep cap supplier booth day_start_idx
          rep_timeslot_order st reqs).suppCount supplier =
        countSupp (processRequests ts reps_df max_meetings_rep cap supplier booth
          day_start_idx rep_timeslot_order st reqs).supplierRows supplier ∧
      (processRequests ts reps_df max_meetings_rep cap supplier booth day_start_idx
          rep_timeslot_order st reqs).suppCount supplier ≤
        max cap (st.suppCount supplier) := by
  intro reqs
  induction reqs with
  | nil =>
    intro st h
    exact ⟨h, Nat.le_max_right _ _⟩
  | cons request rest ih =>
    intro st h
    rw [processRequests]
    by_cases hcap : cap ≤ st.suppCount supplier
    · rw [if_pos hcap]
      exact ⟨h, Nat.le_max_right _ _⟩
    · rw [if_neg hcap]
      obtain ⟨h1, hle1⟩ := processOneRequest_suppCount ts reps_df max_meetings_rep supplier
        booth day_start_idx rep_timeslot_order st request h
      obtain ⟨h2, hle2⟩ := ih _ h1
      refine ⟨h2, ?_⟩
      have hstep : (processOneRequest ts reps_df max_meetings_rep supplier booth
          day_start_idx rep_timeslot_order st request).suppCount supplier ≤ cap :=
        Nat.le_trans hle1 (Nat.lt_of_not_le hcap)
      calc _ ≤ max cap ((processOneRequest ts reps_df max_meetings_rep supplier booth
            day_start_idx rep_timeslot_order st request).suppCount supplier) := hle2
        _ = cap := Nat.max_eq_left hstep
        _ ≤ max cap (st.suppCount supplier) := Nat.le_max_left _ _

theorem processSupplier_countSupp_self (ts : Calendar) (reps_df : List Rep)
    (preferences : String → List String) (max_meetings_rep max_peak max_acc : Nat)
    (day_start : String → Nat) (rep_timeslot_order : String → String → List String)
    (st : SchedState) (supp : Supplier)
    (h0 : countSupp st.supplierRows supp.name = 0) :
    countSupp (processSupplier ts reps_df preferences max_meetings_rep max_peak max_acc
      day_start rep_timeslot_order st supp).supplierRows supp.name ≤
      capOf max_peak max_acc supp := by
  simp only [processSupplier]
  obtain ⟨heq, hle⟩ := processRequests_cap ts reps_df max_meetings_rep
    (capOf max_peak max_acc supp) supp.name supp.booth (day_start supp.name)
    rep_timeslot_order (preferences supp.name)
    { st with
      suppCount := fun s => if s == supp.name then 0 else st.suppCount s
      summary := setKey supp.name
        { requested := preferences supp.name, fulfilled := [], categoryCounts := fun _ => 0 }
        st.summary }
    (by simpa using h0.symm)
  rw [← heq]
  have hle' := hle
  simp only at hle'
  rw [if_pos (by simp)] at hle'
  rw [Nat.max_eq_left (Nat.zero_le _)] at hle'
  exact hle'

theorem processSupplier_rows (ts : Calendar) (reps_df : List Rep)
    (preferences : String → List String) (max_meetings_rep max_peak max_acc : Nat)
    (day_start : String → Nat) (rep_timeslot_order : String → String → List String)
    (st : SchedState) (supp : Supplier) :
    ∃ new, (processSupplier ts reps_df preferences max_meetings_rep max_peak max_acc
        day_start rep_timeslot_order st supp).supplierRows = st.supplierRows ++ new ∧
      ∀ row ∈ new, row.supplier = supp.name := by
  simp only [processSupplier]
  obtain ⟨new, h, hs⟩ := processRequests_rows ts reps_df max_meetings_rep
    (capOf max_peak max_acc supp) supp.name supp.booth (day_start supp.name)
    rep_timeslot_order (preferences supp.name)
    { st with
      suppCount := fun s => if s == supp.name then 0 else st.suppCount s
      summary := setKey supp.name
        { requested := preferences supp.name, fulfilled := [], categoryCounts := fun _ => 0 }
        st.summary }
  exact ⟨new, h, hs⟩

theorem processSupplier_countSupp_other (ts : Calendar) (reps_df : List Rep)
    (preferences : String → List String) (max_meetings_rep max_peak max_acc : Nat)
    (day_start : String → Nat) (rep_timeslot_order : String → String → List String)
    (st : SchedState) (supp : Supplier) (s' : String) (hne : s' ≠ supp.name) :
    countSupp (processSupplier ts reps_df preferences max_meetings_rep max_peak max_acc
      day_start rep_timeslot_order st supp).supplierRows s' =
      countSupp st.supplierRows s' := by
  obtain ⟨new, h, hs⟩ := processSupplier_rows ts reps_df preferences max_meetings_rep
    max_peak max_acc day_start rep_timeslot_order st supp
  rw [h, countSupp_append, countSupp_eq_zero new supp.name s' hs (Ne.symm hne)]
  rfl

theorem fold_countSupp_other (ts : Calendar) (reps_df : List Rep)
    (preferences : String → List String) (max_meetings_rep max_peak max_acc : Nat)
    (day_start : String → Nat) (rep_timeslot_order : String → String → List String) :
    ∀ (L : List Supplier) (st : SchedState) (s' : String),
      (∀ supp ∈ L, supp.name ≠ s') →
      countSupp ((L.foldl (fun st supp => processSupplier ts reps_df preferences
        max_meetings_rep max_peak max_acc day_start rep_timeslot_order st supp)
        st)).supplierRows s' = countSupp st.supplierRows s' := by
  intro L
  induction L with
  | nil => intro st s' _; rfl
  | cons supp₀ rest ih =>
    intro st s' hall
    rw [List.foldl_cons]
    rw [ih _ s' (fun supp hm => hall supp (List.mem_cons_of_mem _ hm))]
    exact processSupplier_countSupp_other ts reps_df preferences max_meetings_rep max_peak
      max_acc day_start rep_timeslot_order st supp₀ s'
      (Ne.symm (hall supp₀ (List.mem_cons_self _ _)))

theorem fold_cap (ts : Calendar) (reps_df : List Rep)
    (preferences : String → List String) (max_meetings_rep max_peak max_acc : Nat)
    (day_start : String → Nat) (rep_timeslot_order : String → String → List String) :
    ∀ (L : List Supplier) (st : SchedState),
      (L.map (fun s => s.name)).Nodup →
      (∀ supp ∈ L, countSupp st.supplierRows supp.name = 0) →
      ∀ supp ∈ L,
        countSupp ((L.foldl (fun st supp => processSupplier ts reps_df preferences
          max_meetings_rep max_peak max_acc day_start rep_timeslot_order st supp)
          st)).supplierRows supp.name ≤ capOf max_peak max_acc supp := by
  intro L
  induction L with
  | nil => intro st _ _ supp hm; simp at hm
  | cons supp₀ rest ih =>
    intro st hnd hz supp hm
    rw [List.map_cons, List.nodup_cons] at hnd
    obtain ⟨hnotin, hnd'⟩ := hnd
    have hrest_ne : ∀ s ∈ rest, s.name ≠ supp₀.name := by
      intro s hs hcontr
      exact hnotin (hcontr ▸ List.mem_map_of_mem (fun x => x.name) hs)
    rw [List.foldl_cons]
    rcases List.mem_cons.mp hm with rfl | hm'
    · rw [fold_countSupp_other ts reps_df preferences max_meetings_rep max_peak max_acc
        day_start rep_timeslot_order rest _ supp.name hrest_ne]
      exact processSupplier_countSupp_self ts reps_df preferences max_meetings_rep
        max_peak max_acc day_start rep_timeslot_order st supp
        (hz supp (List.mem_cons_self _ _))
    · refine ih _ hnd' ?_ supp hm'
      intro s hs
      rw [processSupplier_countSupp_other ts reps_df preferences max_meetings_rep max_peak
        max_acc day_start rep_timeslot_order st supp₀ s.name (hrest_ne s hs)]
      exact hz s (List.mem_cons_of_mem _ hs)

theorem countRep_insertionSort (rows : List Row) (rname : String) :
    countRep (rows.insertionSort rowLEsupplier) rname = countRep rows rname := by
  simp only [countRep]
  exact ((List.perm_insertionSort rowLEsupplier rows).filter
    (fun row => row.rep == rname)).length_eq

theorem countSupp_insertionSort (rows : List Row) (s : String) :
    countSupp (rows.insertionSort rowLEsupplier) s = countSupp rows s := by
  simp only [countSupp]
  exact ((List.perm_insertionSort rowLEsupplier rows).filter
    (fun row => row.supplier == s)).length_eq

/-- C5: in every pass result, every rep holds at most `max_meetings_rep`
meetings, and every supplier holds at most its type's cap (`max_peak` for
Peak suppliers, `max_acc` otherwise), assuming the supplier names are unique
(spec §6). -/
theorem run_scheduler_respects_caps (ts : Calendar) (suppliers_df : List Supplier)
    (reps_df : List Rep) (preferences : String → List String)
    (max_meetings_rep max_peak max_acc : Nat)
    (shuffle : String → String → List String → List String)
    (hnd : (suppliers_df.map (fun s => s.name)).Nodup) :
    (∀ rname : String,
      countRep (run_scheduler ts suppliers_df reps_df preferences max_meetings_rep
        max_peak max_acc shuffle).1 rname ≤ max_meetings_rep) ∧
    (∀ supp ∈ suppliers_df,
      countSupp (run_scheduler ts suppliers_df reps_df preferences max_meetings_rep
        max_peak max_acc shuffle).1 supp.name ≤ capOf max_peak max_acc supp) := by
  simp only [run_scheduler]
  have hordperm : List.Perm (ordered_suppliers suppliers_df reps_df preferences) suppliers_df :=
    List.perm_insertionSort (supplierLE reps_df preferences) suppliers_df
  constructor
  · intro rname
    have hfin := foldl_inv ts reps_df preferences max_meetings_rep max_peak max_acc
      (supplier_day_start_index ts
        ((ordered_suppliers suppliers_df reps_df preferences).map (fun s => s.name)))
      (build_random_timeslot_index ts shuffle)
      (ordered_suppliers suppliers_df reps_df preferences) (initState ts)
      (initState_inv ts max_meetings_rep)
    rw [countRep_insertionSort]
    rw [← hfin.repCountEq rname]
    exact hfin.repCapLe rname
  · intro supp hsupp
    have hnd' : ((ordered_suppliers suppliers_df reps_df preferences).map
        (fun s => s.name)).Nodup :=
      ((hordperm.map (fun s => s.name)).nodup_iff).mpr hnd
    have hcap := fold_cap ts reps_df preferences max_meetings_rep max_peak max_acc
      (supplier_day_start_index ts
        ((ordered_suppliers suppliers_df reps_df preferences).map (fun s => s.name)))
      (build_random_timeslot_index ts shuffle)
      (ordered_suppliers suppliers_df reps_df preferences) (initState ts) hnd'
      (fun _ _ => rfl) supp (hordperm.mem_iff.mpr hsupp)
    rw [countSupp_insertionSort]
    exact hcap

/-- Witness for C5 at a concrete input. -/
theorem run_scheduler_respects_caps_witness :
    ((List.map (fun s => s.name) [sup1, sup2]).Nodup ∧
      countRep (run_scheduler calA [sup1, sup2] [repA, repB] prefsAB 2 6 6 shuffleId).1
        "B" ≤ 2) ∧
    countSupp (run_scheduler calA [sup1, sup2] [repA, repB] prefsAB 2 6 6 shuffleId).1
      sup2.name ≤ capOf 6 6 sup2 :=
  ⟨⟨by decide,
    (run_scheduler_respects_caps calA [sup1, sup2] [repA, repB] prefsAB 2 6 6 shuffleId
      (by decide)).1 "B"⟩,
   (run_scheduler_respects_caps calA [sup1, sup2] [repA, repB] prefsAB 2 6 6 shuffleId
      (by decide)).2 sup2 (by decide)⟩

/-- C6: no meeting of any pass sits on a blackout (`LUNCH`/`BREAK`) slot;
moreover the per-rep slot index searched by the scheduler only contains the
day's non-blackout slots (for any genuine shuffle), so blackout slots are
excluded from every slot search. -/
theorem run_scheduler_no_blackout_meetings (ts : Calendar)
    (suppliers_df : List Supplier) (reps_df : List Rep)
    (preferences : String → List String) (max_meetings_rep max_peak max_acc : Nat)
    (shuffle : String → String → List String → List String)
    (hsh : ShuffleOK shuffle) :
    (∀ row ∈ (run_scheduler ts suppliers_df reps_df preferences max_meetings_rep
        max_peak max_acc shuffle).1,
      isBlackoutSlot ts row.day row.timeslot = false) ∧
    (∀ rep day slot, slot ∈ build_random_timeslot_index ts shuffle rep day →
      slot ∈ openSlots ((ts.lookup day).getD [])) ∧
    (∀ (slot_map : List (String × SlotState)) (slot : String), slot ∈ openSlots slot_map →
      ∃ stt, (slot, stt) ∈ slot_map ∧ stt ≠ some "LUNCH" ∧ stt ≠ some "BREAK") := by
  refine ⟨?_, ?_, ?_⟩
  · intro row hrow
    simp only [run_scheduler] at hrow
    rw [List.mem_insertionSort] at hrow
    have hfin := foldl_inv ts reps_df preferences max_meetings_rep max_peak max_acc
      (supplier_day_start_index ts
        ((ordered_suppliers suppliers_df reps_df preferences).map (fun s => s.name)))
      (build_random_timeslot_index ts shuffle)
      (ordered_suppliers suppliers_df reps_df preferences) (initState ts)
      (initState_inv ts max_meetings_rep)
    exact hfin.noBlackout row hrow
  · intro rep day slot hmem
    simp only [build_random_timeslot_index] at hmem
    exact (hsh rep day _).mem_iff.mp hmem
  · intro slot_map slot hmem
    simp only [openSlots, List.mem_map] at hmem
    obtain ⟨⟨s1, s2⟩, hp, heq⟩ := hmem
    rw [List.mem_filter] at hp
    subst heq
    refine ⟨s2, hp.1, ?_, ?_⟩
    · intro hc
      have := hp.2
      rw [hc] at this
      simp at this
    · intro hc
      have := hp.2
      rw [hc] at this
      simp at this

/-- Witness for C6 at a concrete input (the identity draw on a calendar with
lunch and break slots). -/
theorem run_scheduler_no_blackout_meetings_witness :
    (∀ row ∈ (run_scheduler calB [sup1, sup2] [ann, bob] prefsAnn 1 6 6 shuffleId).1,
      isBlackoutSlot calB row.day row.timeslot = false) ∧
    (∀ rep day slot, slot ∈ build_random_timeslot_index calB shuffleId rep day →
      slot ∈ openSlots ((calB.lookup day).getD [])) ∧
    (∀ (slot_map : List (String × SlotState)) (slot : String), slot ∈ openSlots slot_map →
      ∃ stt, (slot, stt) ∈ slot_map ∧ stt ≠ some "LUNCH" ∧ stt ≠ some "BREAK") :=
  run_scheduler_no_blackout_meetings calB [sup1, sup2] [ann, bob] prefsAnn 1 6 6
    shuffleId (fun _ _ l => List.Perm.refl l)

/-- C7: processing one request is atomic.  Either the state is completely
unchanged, or — in one commit — the meeting row is appended to both tables,
the assigned rep's previously free `(day, slot)` is marked busy, the rep's
and the supplier's counters are each incremented by exactly one, the request
string is appended to the supplier's fulfilled list with its category count
incremented, and nothing else changes; the committed rep comes from the
resolved candidate list and was under its cap. -/
theorem processOneRequest_commit_atomic (ts : Calendar) (reps_df : List Rep)
    (max_meetings_rep : Nat) (supplier booth : String) (day_start_idx : Nat)
    (rep_timeslot_order : String → String → List String)
    (st : SchedState) (request : String) :
    processOneRequest ts reps_df max_meetings_rep supplier booth day_start_idx
      rep_timeslot_order st request = st ∨
    ∃ (r : Rep) (d s : String),
      r ∈ (resolve_request request reps_df).1 ∧
      st.repCount r.name < max_meetings_rep ∧
      st.repAvail r.name d s = true ∧
      (processOneRequest ts reps_df max_meetings_rep supplier booth day_start_idx
        rep_timeslot_order st request).supplierRows = st.supplierRows ++
        [{ supplier := supplier, booth := booth, day := d, timeslot := s, rep := r.name,
           category := categoryLabel (resolve_request request reps_df).2 r request }] ∧
      (processOneRequest ts reps_df max_meetings_rep supplier booth day_start_idx
        rep_timeslot_order st request).repRows = st.repRows ++
        [{ supplier := supplier, booth := booth, day := d, timeslot := s, rep := r.name,
           category := categoryLabel (resolve_request request reps_df).2 r request }] ∧
      (processOneRequest ts reps_df max_meetings_rep supplier booth day_start_idx
        rep_timeslot_order st request).repAvail = (fun r' d' s' =>
          if r' == r.name && d' == d && s' == s then false else st.repAvail r' d' s') ∧
      (processOneRequest ts reps_df max_meetings_rep supplier booth day_start_idx
        rep_timeslot_order st request).repCount = (fun q =>
          if q == r.name then st.repCount q + 1 else st.repCount q) ∧
      (processOneRequest ts reps_df max_meetings_rep supplier booth day_start_idx
        rep_timeslot_order st request).suppCount = (fun q =>
          if q == supplier then st.suppCount q + 1 else st.suppCount q) ∧
      (processOneRequest ts reps_df max_meetings_rep supplier booth day_start_idx
        rep_timeslot_order st request).summary = modifyKey supplier (fun sm =>
          { sm with
            fulfilled := sm.fulfilled ++ [request]
            categoryCounts := fun q =>
              if q == request then sm.categoryCounts q + 1 else sm.categoryCounts q })
        st.summary := by
  rcases processOneRequest_cases ts reps_df max_meetings_rep supplier booth day_start_idx
      rep_timeslot_order st request with heq | ⟨r, d, s, hmem, hcap, havail, _, _, _, _, heq⟩
  · exact Or.inl heq
  · right
    refine ⟨r, d, s, hmem, hcap, havail, ?_, ?_, ?_, ?_, ?_, ?_⟩ <;> rw [heq] <;> rfl

/-! ## Lemmas about specificity and supplier ordering -/

theorem request_specificity_go_eq (reps_df : List Rep) :
    ∀ (reqs : List String) (best : Nat), best ≤ 3 →
      request_specificity_go reps_df best reqs =
        if ∃ q ∈ reqs, (resolve_request q reps_df).2 = RType.rep then 0
        else min best
          (if ∃ q ∈ reqs, (resolve_request q reps_df).2 = RType.subcat then 1
           else if ∃ q ∈ reqs, (resolve_request q reps_df).2 = RType.category then 2
           else 3) := by
  intro reqs
  induction reqs with
  | nil =>
    intro best hb
    simp [request_specificity_go, Nat.min_eq_left hb]
  | cons q rest ih =>
    intro best hb
    rw [request_specificity_go]
    cases hq : (resolve_request q reps_df).2 with
    | rep =>
      simp [List.mem_cons, exists_eq_or_imp, hq]
    | subcat =>
      rw [ih (min best 1) (Nat.le_trans (Nat.min_le_right best 1) (by omega))]
      simp only [List.mem_cons, exists_eq_or_imp, hq, reduceCtorEq, false_or,
        eq_self_iff_true, true_or, if_true]
      split_ifs <;> omega
    | category =>
      rw [ih (min best 2) (Nat.le_trans (Nat.min_le_right best 2) (by omega))]
      simp only [List.mem_cons, exists_eq_or_imp, hq, reduceCtorEq, false_or,
        eq_self_iff_true, true_or, if_true]
      split_ifs <;> omega
    | unresolved =>
      rw [ih best hb]
      simp only [List.mem_cons, exists_eq_or_imp, hq, reduceCtorEq, false_or]

/-- C9: a supplier's specificity score is 0 when some request resolves to
`ExactRep`, else 1 when some resolves to `Subcategory`, else 2 when some
resolves to `Category`, else 3; and the assignment loop's supplier order
(`ordered_suppliers`, the list `run_scheduler` folds over) is a permutation
of the input sorted by priority type (Peak first) and then specificity,
both ascending. -/
theorem specificity_and_supplier_order :
    (∀ (req_list : List String) (reps_df : List Rep),
      request_specificity req_list reps_df =
        if ∃ q ∈ req_list, (resolve_request q reps_df).2 = RType.rep then 0
        else if ∃ q ∈ req_list, (resolve_request q reps_df).2 = RType.subcat then 1
        else if ∃ q ∈ req_list, (resolve_request q reps_df).2 = RType.category then 2
        else 3) ∧
    (∀ (suppliers_df : List Supplier) (reps_df : List Rep)
      (preferences : String → List String),
      List.Sorted (supplierLE reps_df preferences)
        (ordered_suppliers suppliers_df reps_df preferences) ∧
      List.Perm (ordered_suppliers suppliers_df reps_df preferences) suppliers_df) := by
  constructor
  · intro req_list reps_df
    rw [request_specificity, request_specificity_go_eq reps_df req_list 3 (Nat.le_refl 3)]
    split_ifs <;> omega
  · intro suppliers_df reps_df preferences
    exact ⟨List.sorted_insertionSort _ _, List.perm_insertionSort _ _⟩

/-! ## Lemmas about the supplier summary -/

theorem setKey_lookup_self (k : String) (v : Summary) :
    ∀ l : List (String × Summary), (setKey k v l).lookup k = some v := by
  intro l
  induction l with
  | nil => simp [setKey, List.lookup]
  | cons p rest ih =>
    obtain ⟨k', v'⟩ := p
    by_cases h : k' = k
    · subst h
      rw [setKey, if_pos (by simp)]
      simp [List.lookup]
    · have hbeq : (k == k') = false := by simpa using fun hh => h hh.symm
      rw [setKey, if_neg (by simpa using h)]
      simp [List.lookup, hbeq, ih]

theorem setKey_lookup_other (k : String) (v : Summary) (k' : String) (hne : k' ≠ k) :
    ∀ l : List (String × Summary), (setKey k v l).lookup k' = l.lookup k' := by
  intro l
  have hbne : (k' == k) = false := by simpa using hne
  induction l with
  | nil => simp [setKey, List.lookup, hbne]
  | cons p rest ih =>
    obtain ⟨k₀, v₀⟩ := p
    by_cases h : k₀ = k
    · subst h
      rw [setKey, if_pos (by simp)]
      simp [List.lookup, hbne]
    · rw [setKey, if_neg (by simpa using h)]
      by_cases h' : k' = k₀
      · subst h'
        simp [List.lookup]
      · have hbeq : (k' == k₀) = false := by simpa using h'
        simp [List.lookup, hbeq, ih]

theorem modifyKey_lookup_self (k : String) (f : Summary → Summary) :
    ∀ l : List (String × Summary), (modifyKey k f l).lookup k = (l.lookup k).map f := by
  intro l
  induction l with
  | nil => simp [modifyKey, List.lookup]
  | cons p rest ih =>
    obtain ⟨k₀, v₀⟩ := p
    by_cases h : k₀ = k
    · subst h
      rw [modifyKey, if_pos (by simp)]
      simp [List.lookup]
    · have hbeq : (k == k₀) = false := by simpa using fun hh => h hh.symm
      rw [modifyKey, if_neg (by simpa using h)]
      simp [List.lookup, hbeq, ih]

theorem modifyKey_lookup_other (k : String) (f : Summary → Summary) (k' : String)
    (hne : k' ≠ k) :
    ∀ l : List (String × Summary), (modifyKey k f l).lookup k' = l.lookup k' := by
  intro l
  have hbne : (k' == k) = false := by simpa using hne
  induction l with
  | nil => simp [modifyKey]
  | cons p rest ih =>
    obtain ⟨k₀, v₀⟩ := p
    by_cases h : k₀ = k
    · subst h
      rw [modifyKey, if_pos (by simp)]
      simp [List.lookup, hbne]
    · rw [modifyKey, if_neg (by simpa using h)]
      by_cases h' : k' = k₀
      · subst h'
        simp [List.lookup]
      · have hbeq : (k' == k₀) = false := by simpa using h'
        simp [List.lookup, hbeq, ih]

theorem lookup_some_mem_keys :
    ∀ (l : List (String × Summary)) (k : String) (v : Summary),
      l.lookup k = some v → k ∈ l.map Prod.fst := by
  intro l
  induction l with
  | nil => intro k v h; simp [List.lookup] at h
  | cons p rest ih =>
    intro k v h
    obtain ⟨k₀, v₀⟩ := p
    by_cases h' : k = k₀
    · rw [List.map_cons]
      exact h' ▸ List.mem_cons_self _ _
    · have hbeq : (k == k₀) = false := by simpa using h'
      rw [List.lookup] at h
      rw [hbeq] at h
      exact List.mem_cons_of_mem _ (ih k v h)

theorem processOneRequest_requested (ts : Calendar) (reps_df : List Rep)
    (max_meetings_rep : Nat) (supplier booth : String) (day_start_idx : Nat)
    (rep_timeslot_order : String → String → List String)
    (st : SchedState) (request : String) (n : String) (rq : List String)
    (hp : ∃ sm, st.summary.lookup n = some sm ∧ sm.requested = rq) :
    ∃ sm, (processOneRequest ts reps_df max_meetings_rep supplier booth day_start_idx
      rep_timeslot_order st request).summary.lookup n = some sm ∧ sm.requested = rq := by
  obtain ⟨sm, hlk, hrq⟩ := hp
  rcases processOneRequest_cases ts reps_df max_meetings_rep supplier booth day_start_idx
      rep_timeslot_order st request with heq | ⟨r, d, s, _, _, _, _, _, _, _, heq⟩
  · rw [heq]
    exact ⟨sm, hlk, hrq⟩
  · rw [heq]
    simp only [commitMeeting]
    by_cases hn : n = supplier
    · subst hn
      rw [modifyKey_lookup_self, hlk]
      exact ⟨_, rfl, hrq⟩
    · rw [modifyKey_lookup_other _ _ _ hn, hlk]
      exact ⟨sm, rfl, hrq⟩

theorem processRequests_requested (ts : Calendar) (reps_df : List Rep)
    (max_meetings_rep cap : Nat) (supplier booth : String) (day_start_idx : Nat)
    (rep_timeslot_order : String → String → List String) (n : String) (rq : List String) :
    ∀ (reqs : List String) (st : SchedState),
      (∃ sm, st.summary.lookup n = some sm ∧ sm.requested = rq) →
      ∃ sm, (processRequests ts reps_df max_meetings_rep cap supplier booth day_start_idx
        rep_timeslot_order st reqs).summary.lookup n = some sm ∧ sm.requested = rq := by
  intro reqs
  induction reqs with
  | nil => intro st hp; exact hp
  | cons request rest ih =>
    intro st hp
    rw [processRequests]
    by_cases hcap : cap ≤ st.suppCount supplier
    · rw [if_pos hcap]; exact hp
    · rw [if_neg hcap]
      exact ih _ (processOneRequest_requested ts reps_df max_meetings_rep supplier booth
        day_start_idx rep_timeslot_order st request n rq hp)

theorem processSupplier_requested (ts : Calendar) (reps_df : List Rep)
    (preferences : String → List String) (max_meetings_rep max_peak max_acc : Nat)
    (day_start : String → Nat) (rep_timeslot_order : String → String → List String)
    (st : SchedState) (supp : Supplier) (n : String)
    (hp : n = supp.name ∨
      ∃ sm, st.summary.lookup n = some sm ∧ sm.requested = preferences n) :
    ∃ sm, (processSupplier ts reps_df preferences max_meetings_rep max_peak max_acc
      day_start rep_timeslot_order st supp).summary.lookup n = some sm ∧
      sm.requested = preferences n := by
  simp only [processSupplier]
  have h2 : ∃ sm,
      (setKey supp.name
        { requested := preferences supp.name, fulfilled := [], categoryCounts := fun _ => 0 }
        st.summary).lookup n = some sm ∧ sm.requested = preferences n := by
    rcases hp with rfl | ⟨sm, hlk, hrq⟩
    · exact ⟨_, setKey_lookup_self _ _ _, rfl⟩
    · by_cases hn : n = supp.name
      · subst hn
        exact ⟨_, setKey_lookup_self _ _ _, rfl⟩
      · rw [setKey_lookup_other _ _ _ hn]
        exact ⟨sm, hlk, hrq⟩
  have h3 := processRequests_requested ts reps_df max_meetings_rep
    (capOf max_peak max_acc supp) supp.name supp.booth (day_start supp.name)
    rep_timeslot_order n (preferences n) (preferences supp.name)
    { st with
      suppCount := fun s => if s == supp.name then 0 else st.suppCount s
      summary := setKey supp.name
        { requested := preferences supp.name, fulfilled := [], categoryCounts := fun _ => 0 }
        st.summary } h2
  obtain ⟨sm, hlk, hrq⟩ := h3
  by_cases hn : n = supp.name
  · subst hn
    rw [modifyKey_lookup_self, hlk]
    exact ⟨_, rfl, hrq⟩
  · rw [modifyKey_lookup_other _ _ _ hn, hlk]
    exact ⟨sm, rfl, hrq⟩

theorem fold_requested (ts : Calendar) (reps_df : List Rep)
    (preferences : String → List String) (max_meetings_rep max_peak max_acc : Nat)
    (day_start : String → Nat) (rep_timeslot_order : String → String → List String) :
    ∀ (L : List Supplier) (st : SchedState) (n : String),
      ((∃ supp ∈ L, supp.name = n) ∨
        ∃ sm, st.summary.lookup n = some sm ∧ sm.requested = preferences n) →
      ∃ sm, ((L.foldl (fun st supp => processSupplier ts reps_df preferences
          max_meetings_rep max_peak max_acc day_start rep_timeslot_order st supp)
          st)).summary.lookup n = some sm ∧ sm.requested = preferences n := by
  intro L
  induction L with
  | nil =>
    intro st n hp
    rcases hp with ⟨supp, hmem, _⟩ | hp
    · simp at hmem
    · exact hp
  | cons supp₀ rest ih =>
    intro st n hp
    rw [List.foldl_cons]
    rcases hp with ⟨supp, hmem, hname⟩ | hp
    · rcases List.mem_cons.mp hmem with rfl | hmem'
      · refine ih _ n (Or.inr ?_)
        exact processSupplier_requested ts reps_df preferences max_meetings_rep max_peak
          max_acc day_start rep_timeslot_order st supp n (Or.inl hname.symm)
      · exact ih _ n (Or.inl ⟨supp, hmem', hname⟩)
    · refine ih _ n (Or.inr ?_)
      exact processSupplier_requested ts reps_df preferences max_meetings_rep max_peak
        max_acc day_start rep_timeslot_order st supp₀ n (Or.inr hp)

/-- C10: after a run, the summary holds an entry (with its requested list)
for every supplier of the input list — including suppliers with zero
meetings — and the validation list of suppliers absent from the summary is
empty. -/
theorem run_scheduler_summary_complete (ts : Calendar) (suppliers_df : List Supplier)
    (reps_df : List Rep) (preferences : String → List String)
    (max_meetings_rep max_peak max_acc : Nat)
    (shuffle : String → String → List String → List String) :
    (∀ supp ∈ suppliers_df,
      ∃ sm, (run_scheduler ts suppliers_df reps_df preferences max_meetings_rep max_peak
        max_acc shuffle).2.2.lookup supp.name = some sm ∧
        sm.requested = preferences supp.name) ∧
    missingSuppliers suppliers_df
      (run_scheduler ts suppliers_df reps_df preferences max_meetings_rep max_peak
        max_acc shuffle).2.2 = [] := by
  have key : ∀ supp ∈ suppliers_df,
      ∃ sm, (run_scheduler ts suppliers_df reps_df preferences max_meetings_rep max_peak
        max_acc shuffle).2.2.lookup supp.name = some sm ∧
        sm.requested = preferences supp.name := by
    intro supp hsupp
    simp only [run_scheduler]
    refine fold_requested ts reps_df preferences max_meetings_rep max_peak max_acc
      (supplier_day_start_index ts
        ((ordered_suppliers suppliers_df reps_df preferences).map (fun s => s.name)))
      (build_random_timeslot_index ts shuffle)
      (ordered_suppliers suppliers_df reps_df preferences) (initState ts) supp.name
      (Or.inl ⟨supp, ?_, rfl⟩)
    exact (List.perm_insertionSort (supplierLE reps_df preferences)
      suppliers_df).mem_iff.mpr hsupp
  refine ⟨key, ?_⟩
  simp only [missingSuppliers]
  rw [List.filter_eq_nil_iff]
  intro s hs
  obtain ⟨supp, hmem, rfl⟩ := List.mem_map.mp hs
  obtain ⟨sm, hlk, _⟩ := key supp hmem
  have hkeys := lookup_some_mem_keys _ _ _ hlk
  have hcontains := List.elem_eq_true_of_mem hkeys
  intro hc
  rw [Bool.not_eq_eq_eq_not] at hc
  have : ((run_scheduler ts suppliers_df reps_df preferences max_meetings_rep max_peak
      max_acc shuffle).2.2.map Prod.fst).contains supp.name = true := hcontains
  rw [this] at hc
  simp at hc

/-- Witness for C10 at a concrete input. -/
theorem run_scheduler_summary_complete_witness :
    (∃ sm, (run_scheduler calA [sup1, sup2] [ann, bob] prefsAnn 1 6 6
        shuffleId).2.2.lookup sup1.name = some sm ∧ sm.requested = prefsAnn sup1.name) ∧
    missingSuppliers [sup1, sup2]
      (run_scheduler calA [sup1, sup2] [ann, bob] prefsAnn 1 6 6 shuffleId).2.2 = [] :=
  ⟨(run_scheduler_summary_complete calA [sup1, sup2] [ann, bob] prefsAnn 1 6 6
      shuffleId).1 sup1 (by decide),
   (run_scheduler_summary_complete calA [sup1, sup2] [ann, bob] prefsAnn 1 6 6
      shuffleId).2⟩

/-! ## Concrete evaluations settling the claims about missing behaviour -/

/-- C1: `run_scheduler` performs exactly one assignment pass over one random
draw — it has no seeds parameter and no minimum-unfulfilled selection.  On
the same immutable inputs, two genuine draws give passes with 1 and 0
unfulfilled requests respectively, so a single pass (which is what the code
returns) is not the minimum over draws. -/
theorem run_scheduler_single_pass_draw_dependent :
    ShuffleOK shuffleId ∧ ShuffleOK shuffleRevA ∧
    unfulfilledTotal (run_scheduler calA [sup1, sup2] [repA, repB] prefsAB 2 6 6
      shuffleRevA).2.2 = 1 ∧
    unfulfilledTotal (run_scheduler calA [sup1, sup2] [repA, repB] prefsAB 2 6 6
      shuffleId).2.2 = 0 := by
  refine ⟨fun _ _ l => List.Perm.refl l, ?_, ?_, ?_⟩
  · intro rep day l
    simp only [shuffleRevA]
    by_cases h : (rep == "A") = true
    · rw [if_pos h]
      exact l.reverse_perm
    · rw [if_neg h]
  · decide
  · decide

/-- C2: with the Key-Leader `Ann` at her per-rep cap after supplier `S1`'s
meeting, supplier `S2`'s request for `Ann` is simply dropped: no meeting is
created (even though `Bob`, a District-Leader of the same segment and region,
is completely free), the request stays unfulfilled, and the substitution log
surface read by `attach_substitutions` is empty — no substitution engine
exists in the code. -/
theorem run_scheduler_no_substitution_at_cap :
    ((run_scheduler calA [sup1, sup2] [ann, bob] prefsAnn 1 6 6 shuffleId).2.2.lookup
      "S2").map (fun sm => sm.fulfilled) = some [] ∧
    (run_scheduler calA [sup1, sup2] [ann, bob] prefsAnn 1 6 6 shuffleId).1 =
      [{ supplier := "S1", booth := "1", day := "D1", timeslot := "t1", rep := "Ann",
         category := "CX" }] ∧
    countRep (run_scheduler calA [sup1, sup2] [ann, bob] prefsAnn 1 6 6 shuffleId).1
      "Bob" = 0 ∧
    (∀ sm : Summary, substitutionsLog sm = []) := by
  refine ⟨?_, ?_, ?_, fun _ => rfl⟩ <;> decide

/-- C3: with all caps configured to zero, `run_scheduler` completes normally
and returns an empty schedule (with a full summary) instead of failing fast
with a configuration error — no configuration validation exists in the
code. -/
theorem run_scheduler_zero_caps_returns_empty_schedule :
    (run_scheduler calA [sup1, sup2] [ann, bob] prefsAnn 0 0 0 shuffleId).1 = [] ∧
    (run_scheduler calA [sup1, sup2] [ann, bob] prefsAnn 0 0 0 shuffleId).2.1 = [] ∧
    ((run_scheduler calA [sup1, sup2] [ann, bob] prefsAnn 0 0 0 shuffleId).2.2.map
      Prod.fst) = ["S1", "S2"] ∧
    missingSuppliers [sup1, sup2]
      (run_scheduler calA [sup1, sup2] [ann, bob] prefsAnn 0 0 0 shuffleId).2.2 = [] := by
  refine ⟨?_, ?_, ?_, ?_⟩ <;> decide

/-- C8 (counterexample): the raw request string `" Alice"` matches no rep
name, sub-category or category exactly, so the claim as stated requires tier
`Unresolved` with an empty candidate list — but the code strips the string
first and returns tier `ExactRep` with candidate `alice`. -/
theorem resolve_request_strip_counterexample :
    resolve_request " Alice" [alice] = ([alice], RType.rep) ∧
    alice.name ≠ " Alice" ∧ alice.subcategory ≠ " Alice" ∧ alice.category ≠ " Alice" := by
  refine ⟨?_, ?_, ?_, ?_⟩ <;> decide

/-- C8 (amended): resolution first strips leading/trailing whitespace from
the raw request string, then tries the rules in order with first success
winning: an exact case-sensitive match of the stripped string against rep
names yields tier `ExactRep` with all matching records; otherwise a
sub-category match yields `Subcategory` with candidates sorted ascending by
sub-category rank; otherwise a category match yields `Category` sorted
ascending by category rank; otherwise `Unresolved` with an empty list. -/
theorem resolve_request_characterization (request : String) (reps_df : List Rep) :
    (reps_df.filter (fun r => r.name == pyStrip request) ≠ [] →
      resolve_request request reps_df =
        (reps_df.filter (fun r => r.name == pyStrip request), RType.rep)) ∧
    (reps_df.filter (fun r => r.name == pyStrip request) = [] →
      reps_df.filter (fun r => r.subcategory == pyStrip request) ≠ [] →
      (resolve_request request reps_df).2 = RType.subcat ∧
      List.Perm (resolve_request request reps_df).1
        (reps_df.filter (fun r => r.subcategory == pyStrip request)) ∧
      List.Sorted subRankLE (resolve_request request reps_df).1) ∧
    (reps_df.filter (fun r => r.name == pyStrip request) = [] →
      reps_df.filter (fun r => r.subcategory == pyStrip request) = [] →
      reps_df.filter (fun r => r.category == pyStrip request) ≠ [] →
      (resolve_request request reps_df).2 = RType.category ∧
      List.Perm (resolve_request request reps_df).1
        (reps_df.filter (fun r => r.category == pyStrip request)) ∧
      List.Sorted catRankLE (resolve_request request reps_df).1) ∧
    (reps_df.filter (fun r => r.name == pyStrip request) = [] →
      reps_df.filter (fun r => r.subcategory == pyStrip request) = [] →
      reps_df.filter (fun r => r.category == pyStrip request) = [] →
      resolve_request request reps_df = ([], RType.unresolved)) := by
  refine ⟨?_, ?_, ?_, ?_⟩
  · intro hne
    simp only [resolve_request]
    rw [if_pos (List.length_pos.mpr hne)]
  · intro h1 hne
    simp only [resolve_request]
    rw [if_neg (by simp [h1]), if_pos (List.length_pos.mpr hne)]
    exact ⟨rfl, List.perm_insertionSort _ _, List.sorted_insertionSort _ _⟩
  · intro h1 h2 hne
    simp only [resolve_request]
    rw [if_neg (by simp [h1]), if_neg (by simp [h2]), if_pos (List.length_pos.mpr hne)]
    exact ⟨rfl, List.perm_insertionSort _ _, List.sorted_insertionSort _ _⟩
  · intro h1 h2 h3
    simp only [resolve_request]
    rw [if_neg (by simp [h1]), if_neg (by simp [h2]), if_neg (by simp [h3])]

/-- Witness for the amended C8 at a concrete input (a sub-category
request). -/
theorem resolve_request_characterization_witness :
    (resolve_request "S" [alice]).2 = RType.subcat ∧
    List.Perm (resolve_request "S" [alice]).1
      ([alice].filter (fun r => r.subcategory == pyStrip "S")) ∧
    List.Sorted subRankLE (resolve_request "S" [alice]).1 :=
  (resolve_request_characterization "S" [alice]).2.1 (by decide) (by decide)

end MscScheduler
